import Mathlib

/-!
Verification development for the CSharpServer engine surface
(src/CSharpServer/TcpServer.h and the UDP server header).

The repository's sources are a C++/CLI binding layer: the managed
`TcpSession` / `TcpServer` / `UdpServer` ref classes delegate every
operation to the underlying native engine objects
(`CppServer::Asio::TCPSession` / `TCPServer` / `UDPServer`, included via
`<server/asio/tcp_server.h>` and `<server/asio/udp_server.h>`), whose
implementation is not part of the visible sources.  Accordingly this file
has two layers:

* an engine layer (`TCPSession`, `TCPServer`, `UDPServer`) modelled from
  the specification's description of the engine (each such definition's
  doc comment starts with `Modelled from the spec:`), and
* a binding layer (`TcpSession.Send`, `TcpServer.Multicast`,
  `UdpServer.Send`, `UdpServer.Multicast`) translated directly from the
  C++/CLI code in the sources, including its managed-array indexing and
  its `(int)offset` truncation.
-/

namespace CSharpServer

/-- Modelled from the spec: session state, one of
{Disconnected, Connecting, Connected, Disconnecting}. -/
inductive SessionState where
  | Disconnected
  | Connecting
  | Connected
  | Disconnecting
deriving DecidableEq, Repr

/-- Modelled from the spec: the per-session notification surface
(connected, disconnected, received, sent, empty, error). -/
inductive SessionEvent where
  | connected
  | disconnected
  | received (bytes : List Nat)
  | sent (size : Nat)
  | empty
  | error (code : Nat)
deriving DecidableEq, Repr

/-- Modelled from the spec: a ConnectionSession of the underlying engine
(`CppServer::Asio::TCPSession`, not part of the visible sources): state,
FIFO outbound send queue of byte chunks, counters for bytes sent /
received / pending, the running total of bytes successfully flushed to the
transport, a behaviour tag distinguishing a deployer's session subtype
(0 = the base type), and the list of notifications fired so far. -/
structure TCPSession where
  state : SessionState
  sendQueue : List (List Nat)
  bytesSent : Int
  bytesReceived : Int
  bytesPending : Int
  totalFlushed : Int
  tag : Nat
  events : List SessionEvent
deriving DecidableEq, Repr

/-- Modelled from the spec: a freshly constructed session
(initial state Disconnected, empty queue, zero counters). -/
def initTCPSession : TCPSession :=
  { state := SessionState.Disconnected
    sendQueue := []
    bytesSent := 0
    bytesReceived := 0
    bytesPending := 0
    totalFlushed := 0
    tag := 0
    events := [] }

/-- Total number of queued-but-not-yet-written bytes in a send queue. -/
def queueBytes (q : List (List Nat)) : Nat :=
  (q.map List.length).sum

/-- Modelled from the spec: `Send(buffer)` of the underlying engine
session.  Returns false immediately, without queuing, when the session is
not Connected; otherwise appends the whole buffer to the outbound queue
(a zero-byte buffer is accepted trivially, enqueuing nothing) and raises
bytes-pending by the buffer length.  Never partially enqueues. -/
def TCPSession.Send (s : TCPSession) (buffer : List Nat) : Bool × TCPSession :=
  if s.state = SessionState.Connected then
    if buffer.isEmpty then (true, s)
    else
      (true, { s with sendQueue := s.sendQueue ++ [buffer]
                      bytesPending := s.bytesPending + buffer.length })
  else (false, s)

/-- Modelled from the spec: write completion of the underlying engine.
The written chunk is removed from the queue, bytes-sent increases by its
length, bytes-pending decreases by its length, the "sent" notification
fires, and when the queue becomes empty the "empty" notification fires. -/
def TCPSession.flush (s : TCPSession) : TCPSession :=
  match s.sendQueue with
  | [] => s
  | chunk :: rest =>
      { s with sendQueue := rest
               bytesSent := s.bytesSent + chunk.length
               bytesPending := s.bytesPending - chunk.length
               totalFlushed := s.totalFlushed + chunk.length
               events := s.events ++
                 (if rest.isEmpty then [SessionEvent.sent chunk.length, SessionEvent.empty]
                  else [SessionEvent.sent chunk.length]) }

/-- Modelled from the spec: receive completion of the underlying engine —
the received bytes are delivered via the "received" notification and
bytes-received increases. -/
def TCPSession.receive (s : TCPSession) (bytes : List Nat) : TCPSession :=
  if s.state = SessionState.Connected then
    { s with bytesReceived := s.bytesReceived + bytes.length
             events := s.events ++ [SessionEvent.received bytes] }
  else s

/-- Modelled from the spec: connect of the underlying engine session —
transitions to Connected and fires the "connected" notification. -/
def TCPSession.connect (s : TCPSession) : TCPSession :=
  if s.state = SessionState.Disconnected then
    { s with state := SessionState.Connected
             events := s.events ++ [SessionEvent.connected] }
  else s

/-- Modelled from the spec: `Disconnect()` of the underlying engine
session.  Returns false, with no notification and no state change, when
the session is already Disconnected; otherwise transitions to
Disconnected, discards the outbound queue (bytes-pending drops to the
queue's remaining size subtracted, i.e. to zero), and fires the
"disconnected" notification. -/
def TCPSession.Disconnect (s : TCPSession) : Bool × TCPSession :=
  if s.state = SessionState.Disconnected then (false, s)
  else
    (true, { s with state := SessionState.Disconnected
                    sendQueue := []
                    bytesPending := s.bytesPending - queueBytes s.sendQueue
                    events := s.events ++ [SessionEvent.disconnected] })

/-- Modelled from the spec: the operations that can hit one session. -/
inductive SessionOp where
  | connect
  | send (buffer : List Nat)
  | flush
  | receive (bytes : List Nat)
  | disconnect
deriving DecidableEq, Repr

/-- Apply one operation to a session. -/
def applySessionOp (s : TCPSession) : SessionOp → TCPSession
  | SessionOp.connect => s.connect
  | SessionOp.send buffer => (s.Send buffer).2
  | SessionOp.flush => s.flush
  | SessionOp.receive bytes => s.receive bytes
  | SessionOp.disconnect => (s.Disconnect).2

/-- Run a sequence of operations on a fresh session. -/
def runSession (ops : List SessionOp) : TCPSession :=
  ops.foldl applySessionOp initTCPSession

/-- The session counter invariant: bytes-pending equals the number of
queued-but-not-yet-written bytes, bytes-sent equals the total flushed,
bytes-sent is non-negative, and every queued chunk is non-empty. -/
def SessionInv (s : TCPSession) : Prop :=
  s.bytesPending = (queueBytes s.sendQueue : Int) ∧
  s.bytesSent = s.totalFlushed ∧
  0 ≤ s.bytesSent ∧
  ∀ c ∈ s.sendQueue, c ≠ []

theorem sessionInv_init : SessionInv initTCPSession := by
  refine ⟨rfl, rfl, le_refl 0, ?_⟩
  intro c hc
  simp [initTCPSession] at hc

theorem queueBytes_append (q : List (List Nat)) (c : List Nat) :
    queueBytes (q ++ [c]) = queueBytes q + c.length := by
  simp [queueBytes]

theorem queueBytes_cons (c : List Nat) (q : List (List Nat)) :
    queueBytes (c :: q) = c.length + queueBytes q := by
  simp [queueBytes]

theorem sessionInv_step (s : TCPSession) (op : SessionOp) (h : SessionInv s) :
    SessionInv (applySessionOp s op) := by
  obtain ⟨hpq, hst, hs0, hne⟩ := h
  cases op with
  | connect =>
      simp only [applySessionOp, TCPSession.connect]
      split <;> exact ⟨hpq, hst, hs0, hne⟩
  | send buffer =>
      simp only [applySessionOp, TCPSession.Send]
      split
      · split
        · exact ⟨hpq, hst, hs0, hne⟩
        · rename_i hbe
          refine ⟨?_, hst, hs0, ?_⟩
          · simp only [queueBytes_append, hpq]
            push_cast
            ring
          · intro c hc
            rcases List.mem_append.mp hc with hc | hc
            · exact hne c hc
            · simp only [List.mem_singleton] at hc
              subst hc
              simpa [List.isEmpty_iff] using hbe
      · exact ⟨hpq, hst, hs0, hne⟩
  | flush =>
      simp only [applySessionOp, TCPSession.flush]
      split
      · exact ⟨hpq, hst, hs0, hne⟩
      · rename_i chunk rest hq
        refine ⟨?_, ?_, ?_, ?_⟩
        · simp only [hpq, hq, queueBytes_cons]
          push_cast
          ring
        · simp [hst]
        · have : (0 : Int) ≤ chunk.length := Int.ofNat_nonneg chunk.length
          show (0 : Int) ≤ s.bytesSent + chunk.length
          omega
        · intro c hc
          exact hne c (by simp [hq, hc])
  | receive bytes =>
      simp only [applySessionOp, TCPSession.receive]
      split <;> exact ⟨hpq, hst, hs0, hne⟩
  | disconnect =>
      simp only [applySessionOp, TCPSession.Disconnect]
      split
      · exact ⟨hpq, hst, hs0, hne⟩
      · refine ⟨?_, hst, hs0, ?_⟩
        · simp [hpq, queueBytes]
        · intro c hc
          simp at hc

theorem sessionInv_run (ops : List SessionOp) : SessionInv (runSession ops) := by
  suffices h : ∀ s, SessionInv s → SessionInv (ops.foldl applySessionOp s) from
    h initTCPSession sessionInv_init
  induction ops with
  | nil => intro s hs; exact hs
  | cons op rest ih =>
      intro s hs
      exact ih (applySessionOp s op) (sessionInv_step s op hs)

theorem bytesSent_mono (s : TCPSession) (op : SessionOp) :
    s.bytesSent ≤ (applySessionOp s op).bytesSent := by
  cases op with
  | connect =>
      simp only [applySessionOp, TCPSession.connect]
      split <;> simp
  | send buffer =>
      simp only [applySessionOp, TCPSession.Send]
      split
      · split <;> simp
      · simp
  | flush =>
      simp only [applySessionOp, TCPSession.flush]
      split
      · exact le_refl _
      · rename_i chunk rest hq
        have : (0 : Int) ≤ chunk.length := Int.ofNat_nonneg chunk.length
        show s.bytesSent ≤ s.bytesSent + (chunk.length : Int)
        omega
  | receive bytes =>
      simp only [applySessionOp, TCPSession.receive]
      split <;> simp
  | disconnect =>
      simp only [applySessionOp, TCPSession.Disconnect]
      split <;> simp

/-- Modelled from the spec: the server-level notification surface
(started, stopped, session-connected, session-disconnected, error). -/
inductive ServerEvent where
  | started
  | stopped
  | sessionConnected (id : Nat)
  | sessionDisconnected (id : Nat)
  | error (code : Nat)
deriving DecidableEq, Repr

/-- Modelled from the spec: a ConnectionServer of the underlying engine
(`CppServer::Asio::TCPServer`, not part of the visible sources): a
started flag, whether the OS would let the configured endpoint bind (an
abstraction of the external bind outcome), the configured endpoint, the
endpoint actually bound while started, the session registry mapping
session identifier to session, the next fresh session identifier, and the
notifications fired so far. -/
structure TCPServer where
  started : Bool
  bindOk : Bool
  endpoint : Nat
  boundEndpoint : Option Nat
  registry : List (Nat × TCPSession)
  nextId : Nat
  events : List ServerEvent
deriving DecidableEq, Repr

/-- Modelled from the spec: a freshly constructed server for a configured
endpoint: stopped, empty registry. -/
def initTCPServer (bindOk : Bool) (endpoint : Nat) : TCPServer :=
  { started := false
    bindOk := bindOk
    endpoint := endpoint
    boundEndpoint := none
    registry := []
    nextId := 0
    events := [] }

/-- Modelled from the spec: `Start()` — fails when already started; a
bind failure is reported via the error notification and the server stays
stopped; otherwise binds the configured endpoint and fires "started". -/
def TCPServer.Start (sv : TCPServer) : Bool × TCPServer :=
  if sv.started then (false, sv)
  else if sv.bindOk then
    (true, { sv with started := true
                     boundEndpoint := some sv.endpoint
                     events := sv.events ++ [ServerEvent.started] })
  else (false, { sv with events := sv.events ++ [ServerEvent.error 0] })

/-- Modelled from the spec: `Stop()` — returns false, with no
notification and no state change, when the server is already stopped;
otherwise disconnects every registered session, empties the registry,
closes the listening socket and fires "stopped". -/
def TCPServer.Stop (sv : TCPServer) : Bool × TCPServer :=
  if sv.started then
    (true, { sv with started := false
                     boundEndpoint := none
                     registry := []
                     events := sv.events ++
                       sv.registry.map (fun p => ServerEvent.sessionDisconnected p.1) ++
                       [ServerEvent.stopped] })
  else (false, sv)

/-- Modelled from the spec: `Restart()` — `Stop()` then `Start()` with
the previously configured endpoint; fails if Stop or Start fails. -/
def TCPServer.Restart (sv : TCPServer) : Bool × TCPServer :=
  let stopRes := sv.Stop
  if stopRes.1 then stopRes.2.Start else (false, stopRes.2)

/-- Modelled from the spec: `Multicast(buffer)` — enqueues the same byte
buffer on every currently-registered session whose state is Connected,
skipping sessions in Connecting/Disconnecting.  The returned flag only
reflects whether the fan-out was attempted (server started); a session
whose individual send subsequently fails raises only that session's own
error notification, never a server-level failure. -/
def TCPServer.Multicast (sv : TCPServer) (buffer : List Nat) : Bool × TCPServer :=
  if sv.started then
    (true, { sv with registry := sv.registry.map (fun p =>
               if p.2.state = SessionState.Connected then (p.1, (p.2.Send buffer).2)
               else p) })
  else (false, sv)

/-- Modelled from the spec: `DisconnectAll()` — initiates disconnect on
every registered session (each is removed from the registry and its
disconnection is notified); returns false if the server is not started. -/
def TCPServer.DisconnectAll (sv : TCPServer) : Bool × TCPServer :=
  if sv.started then
    (true, { sv with registry := []
                     events := sv.events ++
                       sv.registry.map (fun p => ServerEvent.sessionDisconnected p.1) })
  else (false, sv)

/-- Modelled from the spec: handling of one accepted connection — the
server obtains the new session by calling the overridable session-factory
hook (`CreateSession`, reached through `InternalCreateSession`) rather
than constructing the base session type directly, registers it under a
fresh identifier, transitions it to Connected, and fires the
"session connected" notification. -/
def TCPServer.accept (sv : TCPServer) (factory : TCPServer → TCPSession) : TCPServer :=
  if sv.started then
    let s := (factory sv).connect
    { sv with registry := sv.registry ++ [(sv.nextId, s)]
              nextId := sv.nextId + 1
              events := sv.events ++ [ServerEvent.sessionConnected sv.nextId] }
  else sv

/-- Modelled from the spec: the default session factory, producing a base
ConnectionSession (behaviour tag 0). -/
def defaultFactory : TCPServer → TCPSession := fun _ => initTCPSession

/-- Modelled from the spec: a session that transitioned to Disconnected
is removed from the registry first, and only then is its destruction
("session disconnected") notification fired. -/
def TCPServer.removeSession (sv : TCPServer) (id : Nat) : TCPServer :=
  if id ∈ sv.registry.map Prod.fst then
    { sv with registry := sv.registry.filter (fun p => p.1 ≠ id)
              events := sv.events ++ [ServerEvent.sessionDisconnected id] }
  else sv

/-- Modelled from the spec: the operations that can hit one server. -/
inductive ServerOp where
  | start
  | stop
  | restart
  | accept
  | multicast (buffer : List Nat)
  | disconnect (id : Nat)
  | disconnectAll
deriving DecidableEq, Repr

/-- Apply one operation to a server. -/
def applyServerOp (sv : TCPServer) : ServerOp → TCPServer
  | ServerOp.start => (sv.Start).2
  | ServerOp.stop => (sv.Stop).2
  | ServerOp.restart => (sv.Restart).2
  | ServerOp.accept => sv.accept defaultFactory
  | ServerOp.multicast buffer => (sv.Multicast buffer).2
  | ServerOp.disconnect id => sv.removeSession id
  | ServerOp.disconnectAll => (sv.DisconnectAll).2

/-- Run a sequence of operations on a fresh server. -/
def runServer (bindOk : Bool) (endpoint : Nat) (ops : List ServerOp) : TCPServer :=
  ops.foldl applyServerOp (initTCPServer bindOk endpoint)

/-- A session's queue and counters do not change its state on enqueue. -/
theorem send_state (s : TCPSession) (b : List Nat) : ((s.Send b).2).state = s.state := by
  simp only [TCPSession.Send]
  split
  · split <;> rfl
  · rfl

/-- The server registry invariant: every registered session is in
{Connecting, Connected, Disconnecting}, identifiers in the registry are
below the fresh-identifier counter, every fired session-disconnected
notification names an identifier below the counter, and no identifier
with a fired session-disconnected notification is still registered. -/
def ServerInv (sv : TCPServer) : Prop :=
  (∀ p ∈ sv.registry, p.2.state = SessionState.Connecting ∨
      p.2.state = SessionState.Connected ∨ p.2.state = SessionState.Disconnecting) ∧
  (∀ p ∈ sv.registry, p.1 < sv.nextId) ∧
  (∀ id, ServerEvent.sessionDisconnected id ∈ sv.events → id < sv.nextId) ∧
  (∀ id, ServerEvent.sessionDisconnected id ∈ sv.events → ∀ p ∈ sv.registry, p.1 ≠ id)

theorem serverInv_init (bindOk : Bool) (endpoint : Nat) :
    ServerInv (initTCPServer bindOk endpoint) := by
  refine ⟨?_, ?_, ?_, ?_⟩ <;> intro p hp <;> simp [initTCPServer] at hp

theorem serverInv_start (sv : TCPServer) (h : ServerInv sv) : ServerInv (sv.Start).2 := by
  obtain ⟨h1, h2, h3, h4⟩ := h
  simp only [TCPServer.Start]
  split
  · exact ⟨h1, h2, h3, h4⟩
  · split
    · refine ⟨h1, h2, ?_, ?_⟩
      · intro id hid
        simp only [List.mem_append, List.mem_singleton] at hid
        rcases hid with hid | hid
        · exact h3 id hid
        · cases hid
      · intro id hid
        simp only [List.mem_append, List.mem_singleton] at hid
        rcases hid with hid | hid
        · exact h4 id hid
        · cases hid
    · refine ⟨h1, h2, ?_, ?_⟩
      · intro id hid
        simp only [List.mem_append, List.mem_singleton] at hid
        rcases hid with hid | hid
        · exact h3 id hid
        · cases hid
      · intro id hid
        simp only [List.mem_append, List.mem_singleton] at hid
        rcases hid with hid | hid
        · exact h4 id hid
        · cases hid

theorem serverInv_stop (sv : TCPServer) (h : ServerInv sv) : ServerInv (sv.Stop).2 := by
  obtain ⟨h1, h2, h3, h4⟩ := h
  simp only [TCPServer.Stop]
  split
  · refine ⟨?_, ?_, ?_, ?_⟩
    · intro p hp; simp at hp
    · intro p hp; simp at hp
    · intro id hid
      simp only [List.mem_append, List.mem_singleton, List.mem_map] at hid
      rcases hid with (hid | ⟨p, hp, hpe⟩) | hid
      · exact h3 id hid
      · cases hpe
        exact h2 p hp
      · cases hid
    · intro id hid p hp
      simp at hp
  · exact ⟨h1, h2, h3, h4⟩

theorem serverInv_restart (sv : TCPServer) (h : ServerInv sv) : ServerInv (sv.Restart).2 := by
  simp only [TCPServer.Restart]
  split
  · exact serverInv_start _ (serverInv_stop sv h)
  · exact serverInv_stop sv h

theorem serverInv_accept (sv : TCPServer) (h : ServerInv sv) :
    ServerInv (sv.accept defaultFactory) := by
  obtain ⟨h1, h2, h3, h4⟩ := h
  simp only [TCPServer.accept]
  split
  · refine ⟨?_, ?_, ?_, ?_⟩
    · intro p hp
      simp only [List.mem_append, List.mem_singleton] at hp
      rcases hp with hp | hp
      · exact h1 p hp
      · subst hp
        right; left
        rfl
    · intro p hp
      simp only [List.mem_append, List.mem_singleton] at hp
      rcases hp with hp | hp
      · exact Nat.lt_succ_of_lt (h2 p hp)
      · subst hp
        exact Nat.lt_succ_self _
    · intro id hid
      simp only [List.mem_append, List.mem_singleton] at hid
      rcases hid with hid | hid
      · exact Nat.lt_succ_of_lt (h3 id hid)
      · cases hid
    · intro id hid p hp
      simp only [List.mem_append, List.mem_singleton] at hid
      rcases hid with hid | hid
      · simp only [List.mem_append, List.mem_singleton] at hp
        rcases hp with hp | hp
        · exact h4 id hid p hp
        · subst hp
          exact Nat.ne_of_gt (h3 id hid)
      · cases hid
  · exact ⟨h1, h2, h3, h4⟩

theorem serverInv_multicast (sv : TCPServer) (buffer : List Nat) (h : ServerInv sv) :
    ServerInv (sv.Multicast buffer).2 := by
  obtain ⟨h1, h2, h3, h4⟩ := h
  simp only [TCPServer.Multicast]
  split
  · refine ⟨?_, ?_, h3, ?_⟩
    · intro p hp
      simp only [List.mem_map] at hp
      obtain ⟨q, hq, hqe⟩ := hp
      subst hqe
      split
      · rename_i hqc
        right; left
        simpa [send_state] using hqc
      · exact h1 q hq
    · intro p hp
      simp only [List.mem_map] at hp
      obtain ⟨q, hq, hqe⟩ := hp
      subst hqe
      split
      · exact h2 q hq
      · exact h2 q hq
    · intro id hid p hp
      simp only [List.mem_map] at hp
      obtain ⟨q, hq, hqe⟩ := hp
      subst hqe
      split
      · exact h4 id hid q hq
      · exact h4 id hid q hq
  · exact ⟨h1, h2, h3, h4⟩

theorem serverInv_remove (sv : TCPServer) (id : Nat) (h : ServerInv sv) :
    ServerInv (sv.removeSession id) := by
  obtain ⟨h1, h2, h3, h4⟩ := h
  simp only [TCPServer.removeSession]
  split
  · rename_i hin
    refine ⟨?_, ?_, ?_, ?_⟩
    · intro p hp
      exact h1 p (List.mem_of_mem_filter hp)
    · intro p hp
      exact h2 p (List.mem_of_mem_filter hp)
    · intro j hj
      simp only [List.mem_append, List.mem_singleton] at hj
      rcases hj with hj | hj
      · exact h3 j hj
      · cases hj
        simp only [List.mem_map] at hin
        obtain ⟨p, hp, hpe⟩ := hin
        subst hpe
        exact h2 p hp
    · intro j hj p hp
      simp only [List.mem_append, List.mem_singleton] at hj
      have hfilter := List.of_mem_filter hp
      simp only [decide_eq_true_eq] at hfilter
      rcases hj with hj | hj
      · exact h4 j hj p (List.mem_of_mem_filter hp)
      · cases hj
        exact hfilter
  · exact ⟨h1, h2, h3, h4⟩

theorem serverInv_disconnectAll (sv : TCPServer) (h : ServerInv sv) :
    ServerInv (sv.DisconnectAll).2 := by
  obtain ⟨h1, h2, h3, h4⟩ := h
  simp only [TCPServer.DisconnectAll]
  split
  · refine ⟨?_, ?_, ?_, ?_⟩
    · intro p hp; simp at hp
    · intro p hp; simp at hp
    · intro id hid
      simp only [List.mem_append, List.mem_map] at hid
      rcases hid with hid | ⟨p, hp, hpe⟩
      · exact h3 id hid
      · cases hpe
        exact h2 p hp
    · intro id hid p hp
      simp at hp
  · exact ⟨h1, h2, h3, h4⟩

theorem serverInv_step (sv : TCPServer) (op : ServerOp) (h : ServerInv sv) :
    ServerInv (applyServerOp sv op) := by
  cases op with
  | start => exact serverInv_start sv h
  | stop => exact serverInv_stop sv h
  | restart => exact serverInv_restart sv h
  | accept => exact serverInv_accept sv h
  | multicast buffer => exact serverInv_multicast sv buffer h
  | disconnect id => exact serverInv_remove sv id h
  | disconnectAll => exact serverInv_disconnectAll sv h

theorem serverInv_run (bindOk : Bool) (endpoint : Nat) (ops : List ServerOp) :
    ServerInv (runServer bindOk endpoint ops) := by
  suffices h : ∀ sv, ServerInv sv → ServerInv (ops.foldl applyServerOp sv) from
    h _ (serverInv_init bindOk endpoint)
  induction ops with
  | nil => intro sv hsv; exact hsv
  | cons op rest ih =>
      intro sv hsv
      exact ih (applyServerOp sv op) (serverInv_step sv op hsv)

/-- Modelled from the spec: a DatagramServer of the underlying engine
(`CppServer::Asio::UDPServer`, not part of the visible sources): a
started flag, the abstract external bind outcome, the configured bind
endpoint, the endpoint bound while started, the multicast group endpoint
recorded at Start time (0 when no group was supplied), the sequence of
writes enqueued-and-submitted so far as (destination endpoint, bytes)
pairs, and the notifications fired so far. -/
structure UDPServer where
  started : Bool
  bindOk : Bool
  endpoint : Nat
  boundEndpoint : Option Nat
  multicastEndpoint : Nat
  writes : List (Nat × List Nat)
  events : List ServerEvent
deriving DecidableEq, Repr

/-- Modelled from the spec: a freshly constructed datagram server. -/
def initUDPServer (bindOk : Bool) (endpoint : Nat) : UDPServer :=
  { started := false
    bindOk := bindOk
    endpoint := endpoint
    boundEndpoint := none
    multicastEndpoint := 0
    writes := []
    events := [] }

/-- Modelled from the spec: `Start(multicast_endpoint)` — binds the
configured endpoint, records the multicast group endpoint, transitions to
Started; fails when already started; a bind failure is reported via the
error notification and the server stays stopped. -/
def UDPServer.StartMulticast (sv : UDPServer) (mep : Nat) : Bool × UDPServer :=
  if sv.started then (false, sv)
  else if sv.bindOk then
    (true, { sv with started := true
                     boundEndpoint := some sv.endpoint
                     multicastEndpoint := mep
                     events := sv.events ++ [ServerEvent.started] })
  else (false, { sv with events := sv.events ++ [ServerEvent.error 0] })

/-- Modelled from the spec: plain `Start()` — binds the configured
endpoint without supplying a new multicast group. -/
def UDPServer.Start (sv : UDPServer) : Bool × UDPServer :=
  if sv.started then (false, sv)
  else if sv.bindOk then
    (true, { sv with started := true
                     boundEndpoint := some sv.endpoint
                     events := sv.events ++ [ServerEvent.started] })
  else (false, { sv with events := sv.events ++ [ServerEvent.error 0] })

/-- Modelled from the spec: `Stop()` — returns false when already
stopped; otherwise closes the socket and fires "stopped" (no session
teardown step for the datagram server). -/
def UDPServer.Stop (sv : UDPServer) : Bool × UDPServer :=
  if sv.started then
    (true, { sv with started := false
                     boundEndpoint := none
                     events := sv.events ++ [ServerEvent.stopped] })
  else (false, sv)

/-- Modelled from the spec: `Restart()` — `Stop()` then `Start()` with
the previously configured endpoint; fails if Stop or Start fails. -/
def UDPServer.Restart (sv : UDPServer) : Bool × UDPServer :=
  let stopRes := sv.Stop
  if stopRes.1 then stopRes.2.Start else (false, stopRes.2)

/-- Modelled from the spec: `Send(endpoint, buffer)` — returns false if
the server is not started; otherwise enqueues-and-submits one write of
the buffer to the given endpoint. -/
def UDPServer.Send (sv : UDPServer) (endpoint : Nat) (buffer : List Nat) :
    Bool × UDPServer :=
  if sv.started then
    (true, { sv with writes := sv.writes ++ [(endpoint, buffer)] })
  else (false, sv)

/-- Modelled from the spec: `Multicast(buffer)` — returns false if the
server is not started; otherwise enqueues-and-submits one write of the
buffer to the multicast group endpoint recorded at Start time. -/
def UDPServer.Multicast (sv : UDPServer) (buffer : List Nat) : Bool × UDPServer :=
  if sv.started then
    (true, { sv with writes := sv.writes ++ [(sv.multicastEndpoint, buffer)] })
  else (false, sv)

/-! ## The C++/CLI binding layer, translated from the sources. -/

/-- The `System.IndexOutOfRangeException` raised by managed-array
element access with an index outside the array's bounds. -/
inductive CliError where
  | indexOutOfRange
deriving DecidableEq, Repr

/-- A C++/CLI managed byte array `array<Byte>^` (a zero-based
single-dimensional `System.Byte[]`). -/
structure CliByteArray where
  data : List Nat
deriving DecidableEq, Repr

/-- `buffer->Length` of a managed array. -/
def CliByteArray.Length (a : CliByteArray) : Int := a.data.length

/-- `buffer->GetLowerBound(0)`: a single-dimensional managed
`array<Byte>^` is zero-based, so the lower bound of dimension 0 is 0. -/
def CliByteArray.GetLowerBound (_a : CliByteArray) (_dim : Nat) : Int := 0

/-- The C++ cast `(int)offset` applied to a 64-bit `long long`:
two's-complement truncation to a signed 32-bit value.  The result is
congruent to the argument modulo 2^32 = 4294967296 and lies in
[-2147483648, 2147483648). -/
def toInt32 (x : Int) : Int := (x + 2147483648) % 4294967296 - 2147483648

/-- `&buffer[index]` on a managed array: bounds-checked element address.
Raises `IndexOutOfRangeException` when the index lies outside
[0, Length); in particular `&buffer[0]` on a zero-length array throws. -/
def CliByteArray.elemAddr (a : CliByteArray) (index : Int) : Except CliError Int :=
  if 0 ≤ index ∧ index < a.Length then Except.ok index
  else Except.error CliError.indexOutOfRange

/-- The `size` bytes starting at the pinned element address `start` that
the binding hands to the native engine as `(ptr, size)`. -/
def pinnedBytes (a : CliByteArray) (start size : Int) : List Nat :=
  (a.data.drop start.toNat).take size.toNat

/-- `TcpSession::Send(array<Byte>^ buffer, long long offset, long long
size)` (src/CSharpServer/TcpServer.h, lines 98-102): evaluates
`pin_ptr<Byte> ptr = &buffer[buffer->GetLowerBound(0) + (int)offset];`
and then calls the native session's `Send(ptr, size)`. -/
def TcpSession.Send (session : TCPSession) (buffer : CliByteArray) (offset size : Int) :
    Except CliError (Bool × TCPSession) :=
  match buffer.elemAddr (buffer.GetLowerBound 0 + toInt32 offset) with
  | Except.error e => Except.error e
  | Except.ok start => Except.ok (TCPSession.Send session (pinnedBytes buffer start size))

/-- `TcpSession::Send(array<Byte>^ buffer)` (src/CSharpServer/TcpServer.h,
line 92): `Send(buffer, 0, buffer->Length)`. -/
def TcpSession.SendArray (session : TCPSession) (buffer : CliByteArray) :
    Except CliError (Bool × TCPSession) :=
  TcpSession.Send session buffer 0 buffer.Length

/-- `TcpServer::Multicast(array<Byte>^ buffer, long long offset, long
long size)` (src/CSharpServer/TcpServer.h, lines 274-278): evaluates
`pin_ptr<Byte> ptr = &buffer[buffer->GetLowerBound(0) + (int)offset];`
and then calls the native server's `Multicast(ptr, size)`. -/
def TcpServer.Multicast (server : TCPServer) (buffer : CliByteArray) (offset size : Int) :
    Except CliError (Bool × TCPServer) :=
  match buffer.elemAddr (buffer.GetLowerBound 0 + toInt32 offset) with
  | Except.error e => Except.error e
  | Except.ok start => Except.ok (TCPServer.Multicast server (pinnedBytes buffer start size))

/-- `TcpServer::Multicast(array<Byte>^ buffer)`
(src/CSharpServer/TcpServer.h, line 266): `Multicast(buffer, 0, buffer->Length)`. -/
def TcpServer.MulticastArray (server : TCPServer) (buffer : CliByteArray) :
    Except CliError (Bool × TCPServer) :=
  TcpServer.Multicast server buffer 0 buffer.Length

/-- `UdpServer::Send(UdpEndpoint^ endpoint, array<Byte>^ buffer, long
long offset, long long size)` (UDP server header, lines 155-159):
evaluates `pin_ptr<Byte> ptr = &buffer[buffer->GetLowerBound(0) +
(int)offset];` and then calls the native server's
`Send(endpoint, ptr, size)`. -/
def UdpServer.Send (server : UDPServer) (endpoint : Nat) (buffer : CliByteArray)
    (offset size : Int) : Except CliError (Bool × UDPServer) :=
  match buffer.elemAddr (buffer.GetLowerBound 0 + toInt32 offset) with
  | Except.error e => Except.error e
  | Except.ok start => Except.ok (UDPServer.Send server endpoint (pinnedBytes buffer start size))

/-- `UdpServer::Send(UdpEndpoint^ endpoint, array<Byte>^ buffer)`
(UDP server header, line 146): `Send(endpoint, buffer, 0, buffer->Length)`. -/
def UdpServer.SendArray (server : UDPServer) (endpoint : Nat) (buffer : CliByteArray) :
    Except CliError (Bool × UDPServer) :=
  UdpServer.Send server endpoint buffer 0 buffer.Length

/-- `UdpServer::Multicast(array<Byte>^ buffer, long long offset, long
long size)` (UDP server header, lines 124-128): evaluates
`pin_ptr<Byte> ptr = &buffer[buffer->GetLowerBound(0) + (int)offset];`
and then calls the native server's `Multicast(ptr, size)`. -/
def UdpServer.Multicast (server : UDPServer) (buffer : CliByteArray) (offset size : Int) :
    Except CliError (Bool × UDPServer) :=
  match buffer.elemAddr (buffer.GetLowerBound 0 + toInt32 offset) with
  | Except.error e => Except.error e
  | Except.ok start => Except.ok (UDPServer.Multicast server (pinnedBytes buffer start size))

/-- `UdpServer::Multicast(array<Byte>^ buffer)` (UDP server header,
line 116): `Multicast(buffer, 0, buffer->Length)`. -/
def UdpServer.MulticastArray (server : UDPServer) (buffer : CliByteArray) :
    Except CliError (Bool × UDPServer) :=
  UdpServer.Multicast server buffer 0 buffer.Length

/-! ## Theorems settling the claims. -/

/-- A successful enqueue on a Connected session extends the outbound
stream by exactly the buffer, byte-identically and contiguously. -/
theorem send_connected_join (s : TCPSession) (buffer : List Nat)
    (h : s.state = SessionState.Connected) :
    ((s.Send buffer).2).sendQueue.flatten = s.sendQueue.flatten ++ buffer := by
  simp only [TCPSession.Send, h, if_true]
  by_cases hb : buffer.isEmpty
  · simp [hb, List.isEmpty_iff.mp hb]
  · simp [hb]

/-- Claim C1: `Send` on a session that is not Connected returns false
immediately without enqueuing any bytes; on a Connected session the call
either accepts the whole buffer — the outbound stream is extended by
exactly the buffer — or fails outright leaving the session unchanged, so
it never enqueues a proper part of the buffer. -/
theorem send_not_connected_false_connected_atomic (s : TCPSession) (buffer : List Nat) :
    (s.state ≠ SessionState.Connected →
      (s.Send buffer).1 = false ∧ (s.Send buffer).2 = s) ∧
    (s.state = SessionState.Connected →
      ((s.Send buffer).1 = true ∧
        ((s.Send buffer).2).sendQueue.flatten = s.sendQueue.flatten ++ buffer) ∨
      ((s.Send buffer).1 = false ∧ (s.Send buffer).2 = s)) := by
  constructor
  · intro h
    simp [TCPSession.Send, h]
  · intro h
    left
    refine ⟨?_, send_connected_join s buffer h⟩
    simp only [TCPSession.Send, h, if_true]
    by_cases hb : buffer.isEmpty <;> simp [hb]

theorem send_not_connected_false_connected_atomic_witness :
    (initTCPSession.state ≠ SessionState.Connected ∧
      (initTCPSession.Send [9]).1 = false ∧ (initTCPSession.Send [9]).2 = initTCPSession) ∧
    (initTCPSession.connect.state = SessionState.Connected ∧
      (((initTCPSession.connect.Send [1, 2]).1 = true ∧
        ((initTCPSession.connect.Send [1, 2]).2).sendQueue.flatten =
          initTCPSession.connect.sendQueue.flatten ++ [1, 2]) ∨
       ((initTCPSession.connect.Send [1, 2]).1 = false ∧
        (initTCPSession.connect.Send [1, 2]).2 = initTCPSession.connect))) :=
  ⟨⟨by decide, (send_not_connected_false_connected_atomic initTCPSession [9]).1 (by decide)⟩,
   ⟨by decide,
    (send_not_connected_false_connected_atomic initTCPSession.connect [1, 2]).2 (by decide)⟩⟩

/-- Claim C4: `Stop()` on an already-stopped server returns false, fires
no notification and leaves the entire server state (events included)
unchanged; `Disconnect()` on an already-Disconnected session returns
false, fires no notification and leaves the entire session state
unchanged. -/
theorem stop_disconnect_idempotent (sv : TCPServer) (s : TCPSession) :
    (sv.started = false → sv.Stop = (false, sv)) ∧
    (s.state = SessionState.Disconnected → s.Disconnect = (false, s)) := by
  constructor
  · intro h
    simp [TCPServer.Stop, h]
  · intro h
    simp [TCPSession.Disconnect, h]

theorem stop_disconnect_idempotent_witness :
    ((initTCPServer true 0).started = false) ∧
    ((initTCPServer true 0).Stop = (false, initTCPServer true 0)) ∧
    (initTCPSession.state = SessionState.Disconnected) ∧
    (initTCPSession.Disconnect = (false, initTCPSession)) :=
  ⟨by decide,
   (stop_disconnect_idempotent (initTCPServer true 0) initTCPSession).1 (by decide),
   by decide,
   (stop_disconnect_idempotent (initTCPServer true 0) initTCPSession).2 (by decide)⟩

/-- Claim C7: on an accepted connection the server obtains the new
session from the overridable session-factory hook, never by constructing
the base session type directly: for every factory, the session appended
to the registry is exactly the factory's product (connected), so a
substituted session subtype — here distinguished by its behaviour tag —
is the object all session notifications route to. -/
theorem accept_uses_factory (sv : TCPServer) (factory : TCPServer → TCPSession)
    (h : sv.started = true) :
    (sv.accept factory).registry = sv.registry ++ [(sv.nextId, (factory sv).connect)] ∧
    (((sv.accept factory).registry.map (fun p => p.2.tag)).getLast? =
      some ((factory sv).tag)) := by
  have htag : ((factory sv).connect).tag = (factory sv).tag := by
    simp only [TCPSession.connect]
    split <;> rfl
  constructor
  · simp [TCPServer.accept, h]
  · simp [TCPServer.accept, h, htag]

theorem accept_uses_factory_witness :
    ((runServer true 0 [ServerOp.start]).started = true) ∧
    ((((runServer true 0 [ServerOp.start]).accept
        (fun _ => { initTCPSession with tag := 7 })).registry.map
          (fun p => p.2.tag)).getLast? = some 7) :=
  ⟨by decide,
   (accept_uses_factory (runServer true 0 [ServerOp.start])
      (fun _ => { initTCPSession with tag := 7 }) (by decide)).2⟩

/-- Claim C8: for the datagram server, `Send(endpoint, buffer)` and
`Multicast(buffer)` both return false (leaving the server unchanged) when
the server is not started; when started, `Send` enqueues-and-submits one
write of the buffer to the given endpoint and `Multicast` one write to
the multicast group endpoint recorded at Start time. -/
theorem udp_send_multicast (u : UDPServer) (ep mep : Nat) (buffer : List Nat) :
    (u.started = false →
      u.Send ep buffer = (false, u) ∧ u.Multicast buffer = (false, u)) ∧
    (u.started = true →
      (u.Send ep buffer).1 = true ∧
      ((u.Send ep buffer).2).writes = u.writes ++ [(ep, buffer)] ∧
      (u.Multicast buffer).1 = true ∧
      ((u.Multicast buffer).2).writes = u.writes ++ [(u.multicastEndpoint, buffer)]) ∧
    (u.started = false → u.bindOk = true →
      (u.StartMulticast mep).1 = true ∧
      ((u.StartMulticast mep).2).multicastEndpoint = mep) := by
  refine ⟨?_, ?_, ?_⟩
  · intro h
    simp [UDPServer.Send, UDPServer.Multicast, h]
  · intro h
    simp [UDPServer.Send, UDPServer.Multicast, h]
  · intro h hb
    simp [UDPServer.StartMulticast, h, hb]

theorem udp_send_multicast_witness :
    ((initUDPServer true 0).started = false) ∧
    ((initUDPServer true 0).Send 5 [1] = (false, initUDPServer true 0) ∧
      (initUDPServer true 0).Multicast [1] = (false, initUDPServer true 0)) ∧
    ((((initUDPServer true 0).StartMulticast 9).2).started = true) ∧
    ((((initUDPServer true 0).StartMulticast 9).2.Send 5 [1]).2.writes = [(5, [1])] ∧
      (((initUDPServer true 0).StartMulticast 9).2.Multicast [1]).2.writes = [(9, [1])]) :=
  ⟨by decide,
   (udp_send_multicast (initUDPServer true 0) 5 9 [1]).1 (by decide),
   by decide,
   ⟨((udp_send_multicast ((initUDPServer true 0).StartMulticast 9).2 5 9 [1]).2.1
       (by decide)).2.1,
    ((udp_send_multicast ((initUDPServer true 0).StartMulticast 9).2 5 9 [1]).2.1
       (by decide)).2.2.2⟩⟩

/-- Claim C2: `Multicast(buffer)` enqueues the identical byte buffer on
every currently-registered session whose state is Connected — each such
session's outbound stream is extended contiguously and byte-identically
by the buffer — and touches no session in Connecting or Disconnecting;
the server-level result reflects only whether the fan-out was attempted
(server started), so a later individual per-session send failure cannot
make it a server-level failure. -/
theorem multicast_fanout (sv : TCPServer) (buffer : List Nat) :
    ((sv.Multicast buffer).1 = sv.started) ∧
    (sv.started = true →
      ∀ i p, sv.registry.get? i = some p →
        (p.2.state = SessionState.Connected →
          ((sv.Multicast buffer).2).registry.get? i = some (p.1, (p.2.Send buffer).2) ∧
          ((p.2.Send buffer).2).sendQueue.flatten = p.2.sendQueue.flatten ++ buffer) ∧
        (p.2.state ≠ SessionState.Connected →
          ((sv.Multicast buffer).2).registry.get? i = some p)) := by
  constructor
  · simp only [TCPServer.Multicast]
    split <;> simp_all
  · intro h i p hp
    have hreg : ((sv.Multicast buffer).2).registry = sv.registry.map (fun p =>
        if p.2.state = SessionState.Connected then (p.1, (p.2.Send buffer).2) else p) := by
      simp [TCPServer.Multicast, h]
    constructor
    · intro hc
      refine ⟨?_, send_connected_join p.2 buffer hc⟩
      rw [hreg, List.get?_map, hp]
      simp [hc]
    · intro hc
      rw [hreg, List.get?_map, hp]
      simp [hc]

theorem multicast_fanout_witness :
    ((runServer true 0 [ServerOp.start, ServerOp.accept]).started = true) ∧
    ((runServer true 0 [ServerOp.start, ServerOp.accept]).registry.get? 0 =
      some (0, initTCPSession.connect)) ∧
    (initTCPSession.connect.state = SessionState.Connected) ∧
    (((runServer true 0 [ServerOp.start, ServerOp.accept]).Multicast [7]).2.registry.get? 0 =
        some (0, (initTCPSession.connect.Send [7]).2) ∧
      ((initTCPSession.connect.Send [7]).2).sendQueue.flatten =
        initTCPSession.connect.sendQueue.flatten ++ [7]) :=
  ⟨by decide, by decide, by decide,
   ((multicast_fanout (runServer true 0 [ServerOp.start, ServerOp.accept]) [7]).2
      (by decide) 0 (0, initTCPSession.connect) (by decide)).1 (by decide)⟩

/-- Claim C6: `Restart()` behaves exactly as `Stop()` followed by
`Start()` with the previously configured endpoint — it fails when either
the Stop step or the Start step fails and succeeds otherwise, and on
success the server is started and bound to the previously configured
endpoint — for both the connection-oriented and the datagram server. -/
theorem restart_is_stop_then_start (sv : TCPServer) (u : UDPServer) :
    (sv.Restart = if (sv.Stop).1 then (sv.Stop).2.Start else (false, (sv.Stop).2)) ∧
    ((sv.Restart).1 = ((sv.Stop).1 && ((sv.Stop).2.Start).1)) ∧
    ((sv.Restart).1 = true → ((sv.Restart).2).started = true ∧
        ((sv.Restart).2).boundEndpoint = some sv.endpoint) ∧
    (u.Restart = if (u.Stop).1 then (u.Stop).2.Start else (false, (u.Stop).2)) ∧
    ((u.Restart).1 = ((u.Stop).1 && ((u.Stop).2.Start).1)) ∧
    ((u.Restart).1 = true → ((u.Restart).2).started = true ∧
        ((u.Restart).2).boundEndpoint = some u.endpoint) := by
  refine ⟨rfl, ?_, ?_, rfl, ?_, ?_⟩
  · simp only [TCPServer.Restart, TCPServer.Stop, TCPServer.Start]
    by_cases hs : sv.started <;> by_cases hb : sv.bindOk <;> simp [hs, hb]
  · intro h
    simp only [TCPServer.Restart, TCPServer.Stop, TCPServer.Start] at h ⊢
    by_cases hs : sv.started <;> by_cases hb : sv.bindOk <;> simp_all
  · simp only [UDPServer.Restart, UDPServer.Stop, UDPServer.Start]
    by_cases hs : u.started <;> by_cases hb : u.bindOk <;> simp [hs, hb]
  · intro h
    simp only [UDPServer.Restart, UDPServer.Stop, UDPServer.Start] at h ⊢
    by_cases hs : u.started <;> by_cases hb : u.bindOk <;> simp_all

theorem restart_witness :
    ((((initTCPServer true 3).Start).2.Restart).1 = true) ∧
    ((((initTCPServer true 3).Start).2.Restart).2.boundEndpoint =
      some (((initTCPServer true 3).Start).2.endpoint)) ∧
    ((((initUDPServer true 4).Start).2.Restart).1 = true) ∧
    ((((initUDPServer true 4).Start).2.Restart).2.boundEndpoint =
      some (((initUDPServer true 4).Start).2.endpoint)) :=
  ⟨by decide,
   ((restart_is_stop_then_start ((initTCPServer true 3).Start).2
       ((initUDPServer true 4).Start).2).2.2.1 (by decide)).2,
   by decide,
   ((restart_is_stop_then_start ((initTCPServer true 3).Start).2
       ((initUDPServer true 4).Start).2).2.2.2.2.2 (by decide)).2⟩

/-- A stopped server's registry is empty (auxiliary reachable-state
invariant used for Claim C3). -/
def StoppedEmpty (sv : TCPServer) : Prop :=
  sv.started = false → sv.registry = []

theorem stoppedEmpty_step (sv : TCPServer) (op : ServerOp) (h : StoppedEmpty sv) :
    StoppedEmpty (applyServerOp sv op) := by
  cases op with
  | start =>
      simp only [applyServerOp, TCPServer.Start]
      split
      · exact h
      · split
        · intro hc
          cases hc
        · exact h
  | stop =>
      simp only [applyServerOp, TCPServer.Stop]
      split
      · intro _
        rfl
      · exact h
  | restart =>
      simp only [applyServerOp, TCPServer.Restart, TCPServer.Stop, TCPServer.Start]
      by_cases hs : sv.started <;> by_cases hb : sv.bindOk <;>
        simp_all [StoppedEmpty]
  | accept =>
      simp only [applyServerOp, TCPServer.accept]
      split
      · rename_i hs
        intro hc
        simp only at hc
        rw [hc] at hs
        cases hs
      · exact h
  | multicast buffer =>
      simp only [applyServerOp, TCPServer.Multicast]
      split
      · rename_i hs
        intro hc
        simp only at hc
        rw [hc] at hs
        cases hs
      · exact h
  | disconnect id =>
      simp only [applyServerOp, TCPServer.removeSession]
      split
      · intro hc
        have : sv.registry = [] := h hc
        simp [this]
      · exact h
  | disconnectAll =>
      simp only [applyServerOp, TCPServer.DisconnectAll]
      split
      · intro _
        rfl
      · exact h

theorem stoppedEmpty_run (bindOk : Bool) (endpoint : Nat) (ops : List ServerOp) :
    StoppedEmpty (runServer bindOk endpoint ops) := by
  suffices h : ∀ sv, StoppedEmpty sv → StoppedEmpty (ops.foldl applyServerOp sv) from
    h _ (fun _ => rfl)
  induction ops with
  | nil => intro sv hsv; exact hsv
  | cons op rest ih =>
      intro sv hsv
      exact ih (applyServerOp sv op) (stoppedEmpty_step sv op hsv)

/-- Claim C3: in every reachable server state, every session present in
the registry has state in {Connecting, Connected, Disconnecting}; a
session whose disconnection notification has fired is no longer in the
registry (it was removed before the notification); and after
`DisconnectAll()` completes the registry is empty. -/
theorem registry_invariant (bindOk : Bool) (endpoint : Nat) (ops : List ServerOp) :
    (∀ p ∈ (runServer bindOk endpoint ops).registry,
        p.2.state = SessionState.Connecting ∨ p.2.state = SessionState.Connected ∨
        p.2.state = SessionState.Disconnecting) ∧
    (∀ id, ServerEvent.sessionDisconnected id ∈ (runServer bindOk endpoint ops).events →
        ∀ p ∈ (runServer bindOk endpoint ops).registry, p.1 ≠ id) ∧
    (((runServer bindOk endpoint ops).DisconnectAll).2.registry = []) := by
  obtain ⟨h1, _h2, _h3, h4⟩ := serverInv_run bindOk endpoint ops
  refine ⟨h1, h4, ?_⟩
  by_cases hs : (runServer bindOk endpoint ops).started
  · simp [TCPServer.DisconnectAll, hs]
  · have hempty := stoppedEmpty_run bindOk endpoint ops (by simpa using hs)
    simp [TCPServer.DisconnectAll, hs, hempty]

theorem registry_invariant_witness :
    ((0, initTCPSession.connect) ∈
      (runServer true 5 [ServerOp.start, ServerOp.accept]).registry) ∧
    (initTCPSession.connect.state = SessionState.Connecting ∨
      initTCPSession.connect.state = SessionState.Connected ∨
      initTCPSession.connect.state = SessionState.Disconnecting) ∧
    (((runServer true 5 [ServerOp.start, ServerOp.accept]).DisconnectAll).2.registry = []) :=
  ⟨by decide,
   (registry_invariant true 5 [ServerOp.start, ServerOp.accept]).1
     (0, initTCPSession.connect) (by decide),
   (registry_invariant true 5 [ServerOp.start, ServerOp.accept]).2.2⟩

/-- Under the session invariant, bytes-pending is zero exactly when the
send queue is empty. -/
theorem pending_zero_iff (s : TCPSession) (h : SessionInv s) :
    s.bytesPending = 0 ↔ s.sendQueue = [] := by
  obtain ⟨hpq, _, _, hne⟩ := h
  rw [hpq]
  constructor
  · intro hz
    cases hq : s.sendQueue with
    | nil => rfl
    | cons chunk rest =>
        exfalso
        have hchunk : chunk ≠ [] := hne chunk (by simp [hq])
        have hlen : 0 < chunk.length := List.length_pos.mpr hchunk
        rw [hq, queueBytes_cons] at hz
        omega
  · intro hq
    simp [hq, queueBytes]

/-- Claim C5: for every sequence of operations on a session, bytes-sent
is non-decreasing across any further operation; bytes-pending is always
≥ 0, equals the sum of queued-but-not-yet-written bytes, rises by the
buffer length on enqueue, strictly falls on a flush of a pending chunk,
and is 0 exactly when the send queue is empty; and once the session is
Disconnected, bytes-sent equals the total bytes successfully flushed
before closure. -/
theorem session_counters (ops : List SessionOp) :
    (0 ≤ (runSession ops).bytesPending) ∧
    ((runSession ops).bytesPending = (queueBytes (runSession ops).sendQueue : Int)) ∧
    ((runSession ops).bytesPending = 0 ↔ (runSession ops).sendQueue = []) ∧
    (∀ op, (runSession ops).bytesSent ≤ (applySessionOp (runSession ops) op).bytesSent) ∧
    (∀ buffer : List Nat, (runSession ops).state = SessionState.Connected →
        (((runSession ops).Send buffer).2).bytesPending =
          (runSession ops).bytesPending + buffer.length) ∧
    (∀ chunk rest, (runSession ops).sendQueue = chunk :: rest →
        ((runSession ops).flush).bytesPending < (runSession ops).bytesPending) ∧
    ((runSession ops).state = SessionState.Disconnected →
        (runSession ops).bytesSent = (runSession ops).totalFlushed) := by
  have hinv := sessionInv_run ops
  obtain ⟨hpq, hst, _hs0, hne⟩ := hinv
  refine ⟨?_, hpq, pending_zero_iff _ (sessionInv_run ops), bytesSent_mono _, ?_, ?_, ?_⟩
  · rw [hpq]
    exact Int.ofNat_nonneg _
  · intro buffer hc
    simp only [TCPSession.Send, hc, if_true]
    by_cases hb : buffer.isEmpty
    · simp [hb, List.isEmpty_iff.mp hb]
    · simp [hb]
  · intro chunk rest hq
    have hchunk : chunk ≠ [] := hne chunk (by simp [hq])
    have hlen : 0 < chunk.length := List.length_pos.mpr hchunk
    simp only [TCPSession.flush]
    split
    · rename_i heq
      rw [heq] at hq
      cases hq
    · rename_i chunk' rest' heq
      rw [heq] at hq
      injection hq with h1 h2
      have hlen' : 0 < chunk'.length := h1 ▸ hlen
      show (runSession ops).bytesPending - (chunk'.length : Int) <
        (runSession ops).bytesPending
      omega
  · intro _
    exact hst

theorem session_counters_witness :
    ((runSession [SessionOp.connect]).state = SessionState.Connected) ∧
    (((runSession [SessionOp.connect]).Send [1, 2]).2.bytesPending =
      (runSession [SessionOp.connect]).bytesPending + ([1, 2] : List Nat).length) ∧
    ((runSession [SessionOp.connect, SessionOp.send [1, 2]]).sendQueue = [[1, 2]]) ∧
    (((runSession [SessionOp.connect, SessionOp.send [1, 2]]).flush).bytesPending <
      (runSession [SessionOp.connect, SessionOp.send [1, 2]]).bytesPending) :=
  ⟨by decide,
   (session_counters [SessionOp.connect]).2.2.2.2.1 [1, 2] (by decide),
   by decide,
   (session_counters [SessionOp.connect, SessionOp.send [1, 2]]).2.2.2.2.2.1
     [1, 2] [] (by decide)⟩

/-- Claim C9: for every zero-length managed byte array, the array
overloads `TcpSession::Send(buffer)`, `TcpServer::Multicast(buffer)`,
`UdpServer::Send(endpoint, buffer)` and `UdpServer::Multicast(buffer)`
do not return a boolean result: each evaluates
`&buffer[buffer->GetLowerBound(0) + 0]`, which indexes past the end of
the empty array and raises the index-out-of-range exception before any
underlying send is attempted, whatever the session or server state. -/
theorem empty_array_overloads_throw (s : TCPSession) (sv : TCPServer) (u : UDPServer)
    (ep : Nat) :
    TcpSession.SendArray s ⟨[]⟩ = Except.error CliError.indexOutOfRange ∧
    TcpServer.MulticastArray sv ⟨[]⟩ = Except.error CliError.indexOutOfRange ∧
    UdpServer.SendArray u ep ⟨[]⟩ = Except.error CliError.indexOutOfRange ∧
    UdpServer.MulticastArray u ⟨[]⟩ = Except.error CliError.indexOutOfRange := by
  refine ⟨?_, ?_, ?_, ?_⟩ <;>
    simp [TcpSession.SendArray, TcpSession.Send, TcpServer.MulticastArray,
      TcpServer.Multicast, UdpServer.SendArray, UdpServer.Send, UdpServer.MulticastArray,
      UdpServer.Multicast, CliByteArray.elemAddr, CliByteArray.GetLowerBound,
      CliByteArray.Length, toInt32]

/-- Claim C10: in the offset-taking overloads, the 64-bit offset is
truncated by the `(int)offset` cast before indexing: `toInt32 offset` is
congruent to `offset` modulo 2^32, lies in the signed 32-bit range, and
differs from `offset` whenever `offset` does not fit in a signed 32-bit
integer; and whenever the managed-array indexing succeeds, the bytes
pinned and handed to the transport by `TcpSession::Send`,
`TcpServer::Multicast` and `UdpServer::Send` start at index
`GetLowerBound(0) + toInt32 offset`, not at the requested offset. -/
theorem offset_truncated (offset : Int) :
    ((offset - toInt32 offset) % 4294967296 = 0) ∧
    (-2147483648 ≤ toInt32 offset ∧ toInt32 offset < 2147483648) ∧
    (¬(-2147483648 ≤ offset ∧ offset < 2147483648) → toInt32 offset ≠ offset) ∧
    (∀ (s : TCPSession) (buffer : CliByteArray) (size start : Int),
        buffer.elemAddr (buffer.GetLowerBound 0 + toInt32 offset) = Except.ok start →
        start = buffer.GetLowerBound 0 + toInt32 offset ∧
        TcpSession.Send s buffer offset size =
          Except.ok (TCPSession.Send s (pinnedBytes buffer start size))) ∧
    (∀ (sv : TCPServer) (buffer : CliByteArray) (size start : Int),
        buffer.elemAddr (buffer.GetLowerBound 0 + toInt32 offset) = Except.ok start →
        TcpServer.Multicast sv buffer offset size =
          Except.ok (TCPServer.Multicast sv (pinnedBytes buffer start size))) ∧
    (∀ (u : UDPServer) (ep : Nat) (buffer : CliByteArray) (size start : Int),
        buffer.elemAddr (buffer.GetLowerBound 0 + toInt32 offset) = Except.ok start →
        UdpServer.Send u ep buffer offset size =
          Except.ok (UDPServer.Send u ep (pinnedBytes buffer start size))) := by
  have hrange : -2147483648 ≤ toInt32 offset ∧ toInt32 offset < 2147483648 := by
    simp only [toInt32]
    omega
  have hok : ∀ (buffer : CliByteArray) (start : Int),
      buffer.elemAddr (buffer.GetLowerBound 0 + toInt32 offset) = Except.ok start →
      start = buffer.GetLowerBound 0 + toInt32 offset := by
    intro buffer start h
    simp only [CliByteArray.elemAddr] at h
    split at h
    · exact (Except.ok.inj h).symm
    · cases h
  refine ⟨?_, hrange, ?_, ?_, ?_, ?_⟩
  · simp only [toInt32]
    omega
  · intro h heq
    rw [heq] at hrange
    exact h hrange
  · intro s buffer size start h
    have hstart := hok buffer start h
    subst hstart
    exact ⟨rfl, by simp [TcpSession.Send, h]⟩
  · intro sv buffer size start h
    have hstart := hok buffer start h
    subst hstart
    simp [TcpServer.Multicast, h]
  · intro u ep buffer size start h
    have hstart := hok buffer start h
    subst hstart
    simp [UdpServer.Send, h]

theorem offset_truncated_witness :
    (¬(-2147483648 ≤ (4294967296 : Int) ∧ (4294967296 : Int) < 2147483648)) ∧
    (toInt32 4294967296 ≠ (4294967296 : Int)) ∧
    (TcpSession.Send initTCPSession ⟨[5, 6, 7]⟩ 4294967296 2 =
      Except.ok (TCPSession.Send initTCPSession
        (pinnedBytes ⟨[5, 6, 7]⟩ (CliByteArray.GetLowerBound ⟨[5, 6, 7]⟩ 0 +
          toInt32 4294967296) 2))) :=
  ⟨by decide,
   (offset_truncated 4294967296).2.2.1 (by decide),
   ((offset_truncated 4294967296).2.2.2.1 initTCPSession ⟨[5, 6, 7]⟩ 2
      (CliByteArray.GetLowerBound ⟨[5, 6, 7]⟩ 0 + toInt32 4294967296) (by rfl)).2⟩

end CSharpServer
